import Mathlib

/-!
Verification of the mini-framework repository (virtual-node renderer, mount
controller, reactive store).

The development shallowly embeds the JavaScript source files
`src/framework/mini.js` (createVNode / render / mount) and
`src/framework/state.js` (makeReactive / notify / subscribe) into Lean.
DOM elements are modelled as records of event-handler slots, property
values and string attributes; the reactive store is modelled as an explicit
heap of JavaScript objects addressed by `Nat`, so that JavaScript object
identity and aliasing are captured faithfully.  Subscriber callbacks are
identified by `Nat` ids and notification is observed through the trace of
callback invocations.
-/

namespace MiniFw

/-! ## Association-list helpers

JavaScript objects preserve insertion order of string keys; we model the
field table of an object (and the attribute / property / handler tables of
a DOM element) as ordered association lists with these update operations,
which mirror ordinary JavaScript property update (replace in place, append
if absent). -/

/-- Look up the value bound to key `k`. -/
def findEntry {α : Type} : List (String × α) → String → Option α
  | [], _ => none
  | (k', v) :: l, k => if k' = k then some v else findEntry l k

/-- Bind key `k` to `v`: replace the first binding in place, append if absent. -/
def setEntry {α : Type} : List (String × α) → String → α → List (String × α)
  | [], k, v => [(k, v)]
  | (k', v') :: l, k, v => if k' = k then (k, v) :: l else (k', v') :: setEntry l k v

/-- Remove every binding of key `k`. -/
def eraseEntry {α : Type} : List (String × α) → String → List (String × α)
  | [], _ => []
  | (k', v') :: l, k => if k' = k then eraseEntry l k else (k', v') :: eraseEntry l k

/-- Does the list bind key `k`. -/
def hasKey {α : Type} (l : List (String × α)) (k : String) : Bool :=
  l.any (fun p => p.1 = k)

theorem findEntry_setEntry_self {α : Type} (l : List (String × α)) (k : String) (v : α) :
    findEntry (setEntry l k v) k = some v := by
  induction l with
  | nil => simp [setEntry, findEntry]
  | cons p l ih =>
    by_cases h : p.1 = k
    · simp [setEntry, h, findEntry]
    · simp [setEntry, h, findEntry, ih]

theorem findEntry_setEntry_ne {α : Type} (l : List (String × α)) (k k' : String) (v : α)
    (h : k ≠ k') : findEntry (setEntry l k v) k' = findEntry l k' := by
  induction l with
  | nil => simp [setEntry, findEntry, h]
  | cons p l ih =>
    by_cases hp : p.1 = k
    · simp [setEntry, hp, findEntry, h]
    · simp [setEntry, hp, findEntry, ih]

theorem findEntry_eraseEntry_ne {α : Type} (l : List (String × α)) (k k' : String)
    (h : k ≠ k') : findEntry (eraseEntry l k) k' = findEntry l k' := by
  induction l with
  | nil => simp [eraseEntry]
  | cons p l ih =>
    by_cases hp : p.1 = k
    · simp [eraseEntry, hp, findEntry, ih, h]
    · simp [eraseEntry, hp, findEntry, ih]

theorem findEntry_eraseEntry_self {α : Type} (l : List (String × α)) (k : String) :
    findEntry (eraseEntry l k) k = none := by
  induction l with
  | nil => simp [eraseEntry, findEntry]
  | cons p l ih =>
    by_cases hp : p.1 = k
    · simp [eraseEntry, hp, ih]
    · simp [eraseEntry, hp, findEntry, ih]

theorem hasKey_setEntry_self {α : Type} (l : List (String × α)) (k : String) (v : α) :
    hasKey (setEntry l k v) k = true := by
  induction l with
  | nil => simp [setEntry, hasKey]
  | cons p l ih =>
    by_cases hp : p.1 = k
    · simp [setEntry, hp, hasKey]
    · simp only [setEntry, hp, if_false, hasKey, List.any_cons] at *
      simp [ih]

theorem hasKey_setEntry_ne {α : Type} (l : List (String × α)) (k k' : String) (v : α)
    (h : k ≠ k') : hasKey (setEntry l k v) k' = hasKey l k' := by
  induction l with
  | nil => simp [setEntry, hasKey, h]
  | cons p l ih =>
    by_cases hp : p.1 = k
    · simp [setEntry, hp, hasKey, h]
    · simp only [setEntry, hp, if_false, hasKey, List.any_cons] at *
      rw [ih]

theorem hasKey_eraseEntry_ne {α : Type} (l : List (String × α)) (k k' : String)
    (h : k ≠ k') : hasKey (eraseEntry l k) k' = hasKey l k' := by
  induction l with
  | nil => simp [eraseEntry]
  | cons p l ih =>
    by_cases hp : p.1 = k
    · have : ¬ (p.1 = k') := by rw [hp]; exact h
      simp only [eraseEntry, hp, if_true, hasKey, List.any_cons] at *
      rw [ih]
      simp [this]
    · simp only [eraseEntry, hp, if_false, hasKey, List.any_cons] at *
      rw [ih]

/-! ## Values appearing in an attrs map

In `createVNode(tag, attrs, ...children)` the attrs values are strings,
numbers, booleans or handler functions.  Functions are opaque callables; the
model identifies each one by a numeric id, and event dispatch is observed as
the list of ids invoked. -/

inductive AttrVal where
  | str (s : String)
  | num (n : Int)
  | bool (b : Bool)
  | fn (cb : Nat)
deriving DecidableEq, Repr

/-- Model of the JavaScript test `typeof value === 'function'`. -/
def callable : AttrVal → Bool
  | .fn _ => true
  | _ => false

/-- Callback id of a callable value (only meaningful when `callable` holds). -/
def cbId : AttrVal → Nat
  | .fn cb => cb
  | _ => 0

/-- Model of the string coercion `setAttribute` performs on its value. -/
def attrValToString : AttrVal → String
  | .str s => s
  | .num n => toString n
  | .bool b => if b then "true" else "false"
  | .fn _ => "function"

/-! ## The browser element interface (finite model)

A browser element exposes a fixed set of IDL properties, among them one
event-handler property `on<event>` per supported event type; assigning a
function to such a property installs the element's single handler for that
event, and assigning a non-callable value resets the handler to null
(TreatNonObjectAsNull).  Assigning any other property name creates an
ordinary (expando) property that installs no event binding.  The model uses
a finite approximation of the interface covering the properties and events
this repository's application uses. -/

/-- Model of JavaScript `toLowerCase()` on one character: ASCII letters
A-Z map to their lowercase forms (the attrs keys this system handles are
ASCII). -/
def lowerChar (c : Char) : Char :=
  if 'A' ≤ c ∧ c ≤ 'Z' then Char.ofNat (c.toNat + 32) else c

/-- Model of JavaScript `key.toLowerCase()`. -/
def toLowerJs (s : String) : String := ⟨s.data.map lowerChar⟩

/-- Model of JavaScript `key.startsWith('on')`: the first two characters
are 'o' then 'n' (the prefix test is case-sensitive). -/
def startsWithOn (s : String) : Bool :=
  match s.data with
  | 'o' :: 'n' :: _ => true
  | _ => false

/-- Event type of an event-handler IDL property name: `eventOf "onclick" =
some "click"` for the supported events, `none` for every other property
name (assigning which creates a plain expando, not an event binding). -/
def eventOf : String → Option String
  | "onclick" => some "click"
  | "ondblclick" => some "dblclick"
  | "onchange" => some "change"
  | "oninput" => some "input"
  | "onkeydown" => some "keydown"
  | "onkeyup" => some "keyup"
  | "onblur" => some "blur"
  | "onfocus" => some "focus"
  | _ => none

/-- Property names the element interface exposes (the `key in el` test is
true for these even before any assignment). -/
def idlPropNames : List String :=
  ["id", "className", "value", "checked", "disabled", "autofocus",
   "placeholder", "type", "style", "hidden", "title",
   "onclick", "ondblclick", "onchange", "oninput", "onkeydown", "onkeyup",
   "onblur", "onfocus"]

/-- Mutable state of a live element while `render` applies the attrs
entries: the tag, the installed event handlers (event type to callback id),
the assigned property values (IDL properties and expandos alike), and the
generic string attributes set through `setAttribute`. -/
structure ElemState where
  tag : String
  handlers : List (String × Nat)
  props : List (String × AttrVal)
  attrsM : List (String × String)
deriving DecidableEq, Repr

/-- Model of `document.createElement(tag)`: a fresh element with no
handlers, no property assignments and no attributes.  Element-name validity
checking (InvalidCharacterError for names such as the empty string) is not
modelled; no claim renders an invalid tag name. -/
def createElement (tag : String) : ElemState := ⟨tag, [], [], []⟩

/-- Model of the generic property assignment `el[p] = v`: assigning an
event-handler IDL property installs (callable) or clears (non-callable) the
handler for its event; assigning any other name stores a property value. -/
def setElemProp (st : ElemState) (p : String) (v : AttrVal) : ElemState :=
  match eventOf p with
  | some e =>
    if callable v then
      { st with handlers := setEntry st.handlers e (cbId v) }
    else
      { st with handlers := eraseEntry st.handlers e }
  | none => { st with props := setEntry st.props p v }

/-- Model of the JavaScript test `key in el`: true for interface properties
and for previously assigned (expando) properties. -/
def keyIn (st : ElemState) (k : String) : Bool :=
  idlPropNames.contains k || hasKey st.props k

/-- One iteration of the attrs loop of `render` (src/framework/mini.js
lines 14-22): keys with the "on" prefix and a callable value are assigned
as `el[key.toLowerCase()] = value`; otherwise keys present in the element
are assigned as properties `el[key] = value`; otherwise
`el.setAttribute(key, value)`. -/
def applyAttr (st : ElemState) (entry : String × AttrVal) : ElemState :=
  if startsWithOn entry.1 && callable entry.2 then
    setElemProp st (toLowerJs entry.1) entry.2
  else if keyIn st entry.1 then
    setElemProp st entry.1 entry.2
  else
    { st with attrsM := setEntry st.attrsM entry.1 (attrValToString entry.2) }

/-- The whole attrs loop: `for (const [key, value] of Object.entries(vnode.attrs || {}))`,
in insertion order. -/
def applyAttrs (st : ElemState) (attrs : List (String × AttrVal)) : ElemState :=
  attrs.foldl applyAttr st

/-! ## Virtual nodes -/

/-- Value space of the arguments `render` and `mount` receive: a descriptor
object `{tag, attrs, children}`, a string, a number, a nested array, a
boolean, null or undefined.  A descriptor whose tag field is missing or
empty is represented with `tag = ""` (both are falsy under the `!vnode.tag`
validation test in `mount`). -/
inductive VNode where
  | str (s : String)
  | num (n : Int)
  | el (tag : String) (attrs : List (String × AttrVal)) (children : List VNode)
  | arr (elems : List VNode)
  | boolLit (b : Bool)
  | nullLit
  | undefLit

/-- Embedding of `createVNode(tag, attrs = {}, ...children)`
(src/framework/mini.js lines 3-5): packages the three fields into an
object, defaulting attrs to the empty object when the argument is omitted
(`none`).  The variadic children are collected as given: a nested array
argument stays one child (`VNode.arr`), it is not flattened. -/
def createVNode (tag : String) (attrs : Option (List (String × AttrVal)))
    (children : List VNode) : VNode :=
  VNode.el tag (attrs.getD []) children

/-- A live DOM node produced by `render`: a text node or an element carrying
its handler, property and attribute state and its child nodes. -/
inductive DomNode where
  | text (s : String)
  | elem (tag : String) (handlers : List (String × Nat))
      (props : List (String × AttrVal)) (attrsM : List (String × String))
      (children : List DomNode)

/-- Message of the TypeError raised by reading `.tag` of null. -/
def tyErrNull : String := "TypeError: Cannot read properties of null"

/-- Message of the TypeError raised by reading `.tag` of undefined. -/
def tyErrUndef : String := "TypeError: Cannot read properties of undefined"

mutual

/-- Embedding of `render(vnode)` (src/framework/mini.js lines 7-29).
Strings and numbers become text nodes.  Any other value reaches
`document.createElement(vnode.tag)`: for a boolean or an array the `.tag`
read yields undefined, so an element with tag name "undefined" and no
attrs or children is created (`false.attrs` and `false.children` are
undefined, defaulted by `|| {}` and `|| []`); for null or undefined the
`.tag` read itself throws a TypeError.  For a descriptor, the attrs loop
runs and then each child is rendered and appended in order. -/
def render : VNode → Except String DomNode
  | .str s => .ok (.text s)
  | .num n => .ok (.text (toString n))
  | .boolLit _ => .ok (.elem "undefined" [] [] [] [])
  | .arr _ => .ok (.elem "undefined" [] [] [] [])
  | .nullLit => .error tyErrNull
  | .undefLit => .error tyErrUndef
  | .el tag attrs children =>
    let st := applyAttrs (createElement tag) attrs
    match renderList children with
    | .error m => .error m
    | .ok kids => .ok (.elem st.tag st.handlers st.props st.attrsM kids)

/-- The children loop `(vnode.children || []).forEach(child =>
el.appendChild(render(child)))`: children rendered left to right, first
thrown error propagating. -/
def renderList : List VNode → Except String (List DomNode)
  | [] => .ok []
  | c :: cs =>
    match render c with
    | .error m => .error m
    | .ok d =>
      match renderList cs with
      | .error m => .error m
      | .ok ds => .ok (d :: ds)

end

/-- Model of programmatically dispatching an event of type `e` on a node:
the element's single handler for `e`, if installed, is invoked once.  The
result is the list of callback ids invoked by the dispatch. -/
def trigger (e : String) : DomNode → List Nat
  | .text _ => []
  | .elem _ hs _ _ _ =>
    match findEntry hs e with
    | some cb => [cb]
    | none => []

/-! ## Mount -/

/-- A mount target that passed the `root instanceof Element` test, reduced
to its observable content: the list of current child nodes. -/
structure Container where
  children : List DomNode

/-- Second argument of `mount`: one descriptor value or an array of them. -/
inductive MountInput where
  | single (v : VNode)
  | vlist (vs : List VNode)

/-- Errors `mount` can raise.  The source throws plain `Error` values
distinguishable only by message; the spec taxonomy maps the message
"Root must be a DOM Element" to TargetError and the "Invalid vnode
structure" messages to StructureError.  A TypeError escaping `render`
(null or undefined child) is carried as `renderError`. -/
inductive MountError where
  | targetError (msg : String)
  | structureError (msg : String)
  | renderError (msg : String)
deriving DecidableEq, Repr

/-- The validation test `!node || typeof node !== 'object' || !node.tag`
applied to a vnode: only a descriptor object with a truthy (nonempty) tag
passes.  Strings and numbers fail the typeof test, arrays have no tag,
null, undefined and booleans are falsy or tagless. -/
def invalidVNode : VNode → Bool
  | .el tag _ _ => tag = ""
  | _ => true

/-- The array branch of `mount` (src/framework/mini.js lines 37-44): walk
the array in order, validating each element and appending its rendering to
the container, stopping at the first invalid element with the fixed error
message "Invalid vnode structure in array".  Returns the container's final
children and the error, if any. -/
def mountList (acc : List DomNode) : List VNode → List DomNode × Option MountError
  | [] => (acc, none)
  | v :: vs =>
    if invalidVNode v then
      (acc, some (.structureError "Invalid vnode structure in array"))
    else
      match render v with
      | .error m => (acc, some (.renderError m))
      | .ok d => mountList (acc ++ [d]) vs

/-- Embedding of `mount(root, vnode)` (src/framework/mini.js lines 31-51).
A non-Element root (`none`) fails the `root instanceof Element` check
before anything else.  Otherwise the container is cleared
(`root.innerHTML = ''`) and only then is the input validated and rendered:
per element for an array, or once for a single descriptor with message
"Invalid vnode structure".  Returns the root's final state (unchanged for
a non-Element root) and the error raised, if any. -/
def mount (root : Option Container) (input : MountInput) :
    Option Container × Option MountError :=
  match root with
  | none => (none, some (.targetError "Root must be a DOM Element"))
  | some _ =>
    match input with
    | .vlist vs =>
      let r := mountList [] vs
      (some ⟨r.1⟩, r.2)
    | .single v =>
      if invalidVNode v then
        (some ⟨[]⟩, some (.structureError "Invalid vnode structure"))
      else
        match render v with
        | .error m => (some ⟨[]⟩, some (.renderError m))
        | .ok d => (some ⟨[d]⟩, none)

/-! ## Reactive store (src/framework/state.js)

The store wraps a plain nested object in a recursive Proxy: the get trap
returns a new Proxy over any object-valued field, the set trap writes the
underlying field and calls `notify()`, which runs every subscriber.

The model makes JavaScript object identity explicit: objects live in a heap
addressed by `Nat`, a field value is a primitive or a reference, and a
reactive handle is identified by the address of the object it wraps (the
Proxy target).  Two Proxies over the same target are observationally
indistinguishable, so the model represents both by the shared address.
Arrays are objects with index keys "0", "1", ... and a "length" field.
Subscribers are callback ids; an invocation trace is a list of ids. -/

/-- Primitive JavaScript value stored in a field. -/
inductive Prim where
  | str (s : String)
  | int (n : Int)
  | bool (b : Bool)
  | null
deriving DecidableEq, Repr

/-- Field value: a primitive, or a reference to a heap object.  The get
trap test `typeof value === 'object' && value !== null` is true exactly of
the `ref` case. -/
inductive SVal where
  | prim (p : Prim)
  | ref (addr : Nat)
deriving DecidableEq, Repr

/-- The heap: each address carries the ordered field table of one object. -/
abbrev Heap : Type := List (Nat × List (String × SVal))

/-- Field table of the object at address `a`. -/
def lookupAddr (h : Heap) (a : Nat) : Option (List (String × SVal)) :=
  match h with
  | [] => none
  | (b, fs) :: rest => if b = a then some fs else lookupAddr rest a

/-- Read `target[k]` of the object at address `a` (none models undefined). -/
def heapGet (h : Heap) (a : Nat) (k : String) : Option SVal :=
  match lookupAddr h a with
  | none => none
  | some fs => findEntry fs k

/-- Write `target[k] = v` on the object at address `a`. -/
def heapSet (h : Heap) (a : Nat) (k : String) (v : SVal) : Heap :=
  match h with
  | [] => []
  | (b, fs) :: rest =>
    if b = a then (b, setEntry fs k v) :: rest else (b, fs) :: heapSet rest a k v

/-- Does the heap hold an object at address `a`. -/
def hasAddr (h : Heap) (a : Nat) : Bool :=
  (lookupAddr h a).isSome

/-- The store: the heap of underlying objects and the subscriber list in
subscription order (`subscribers` in src/framework/state.js). -/
structure Store where
  heap : Heap
  subs : List Nat

/-- Embedding of `notify()` (src/framework/state.js lines 3-5):
`subscribers.forEach(fn => fn())` invokes every subscriber in list order;
the result is the trace of callback invocations. -/
def notify (subs : List Nat) : List Nat :=
  subs.foldl (fun acc fn => acc ++ [fn]) []

/-- Embedding of `subscribe(fn)` (src/framework/state.js lines 7-9):
appends the callback to the subscriber list. -/
def subscribe (st : Store) (fn : Nat) : Store :=
  { st with subs := st.subs ++ [fn] }

/-- The get trap of `makeReactive` (src/framework/state.js lines 13-18):
reading `key` returns the raw value for a primitive and a reactive handle
over the same underlying object for an object value.  In the model the
handle is the object's address, so the trap is heap lookup; a `ref a`
result is the handle wrapping the object at `a`. -/
def reactiveGet (h : Heap) (a : Nat) (k : String) : Option SVal :=
  heapGet h a k

/-- The set trap of `makeReactive` (src/framework/state.js lines 19-23):
`target[key] = value; notify(); return true` — the underlying field is
written first, then every subscriber runs.  Returns the updated store and
the invocation trace of the write. -/
def reactiveSet (st : Store) (a : Nat) (k : String) (v : SVal) : Store × List Nat :=
  ({ st with heap := heapSet st.heap a k v }, notify st.subs)

/-- Chase a chain of field reads from the object at address `a` through the
get trap, producing the address wrapped by the resulting nested handle
(none if some step reads a primitive or a missing field). -/
def getPath (h : Heap) (a : Nat) : List String → Option Nat
  | [] => some a
  | k :: p =>
    match reactiveGet h a k with
    | some (.ref b) => getPath h b p
    | _ => none

/-- Embedding of `Array.prototype.push(v)` called on a reactive handle over
the array at address `a`, following the ECMAScript algorithm: read
`length` through the get trap, then `Set(O, ToString(length), v)` and
`Set(O, "length", length + 1)` — each a separate pass through the Proxy
set trap, hence each notifying all subscribers.  Returns the updated store
and the concatenated invocation trace (none if `length` is not an
integer). -/
def arrayPush (st : Store) (a : Nat) (v : SVal) : Option (Store × List Nat) :=
  match heapGet st.heap a "length" with
  | some (.prim (.int n)) =>
    let r1 := reactiveSet st a (toString n) v
    let r2 := reactiveSet r1.1 a "length" (.prim (.int (n + 1)))
    some (r2.1, r1.2 ++ r2.2)
  | _ => none

/-- Address of the root state object (`state` in src/framework/state.js). -/
def rootAddr : Nat := 0

/-- Heap of the initial application state
`{tasks: [], filter: 'all', editingId: null, currentId: 1}`: the root
object at address 0 and the empty tasks array at address 1. -/
def initialHeap : Heap :=
  [(0, [("tasks", .ref 1), ("filter", .prim (.str "all")),
        ("editingId", .prim .null), ("currentId", .prim (.int 1))]),
   (1, [("length", .prim (.int 0))])]

/-! ## Heap lemmas -/

theorem foldl_snoc_eq (l acc : List Nat) :
    List.foldl (fun a fn => a ++ [fn]) acc l = acc ++ l := by
  induction l generalizing acc with
  | nil => simp
  | cons x xs ih => simp [List.foldl_cons, ih]

theorem notify_eq (subs : List Nat) : notify subs = subs := by
  simp [notify, foldl_snoc_eq]

theorem lookupAddr_heapSet_self (h : Heap) (a : Nat) (k : String) (v : SVal) :
    lookupAddr (heapSet h a k v) a = (lookupAddr h a).map (fun fs => setEntry fs k v) := by
  induction h with
  | nil => simp [heapSet, lookupAddr]
  | cons e rest ih =>
    by_cases hb : e.1 = a
    · simp [heapSet, hb, lookupAddr]
    · simp [heapSet, hb, lookupAddr, ih]

theorem lookupAddr_heapSet_ne (h : Heap) (a b : Nat) (k : String) (v : SVal)
    (hne : a ≠ b) : lookupAddr (heapSet h b k v) a = lookupAddr h a := by
  induction h with
  | nil => simp [heapSet]
  | cons e rest ih =>
    by_cases hb : e.1 = b
    · have hba : ¬ (b = a) := fun hc => hne hc.symm
      simp [heapSet, hb, lookupAddr, hba, ih]
    · simp [heapSet, hb, lookupAddr, ih]

theorem heapGet_heapSet_self (h : Heap) (a : Nat) (k : String) (v : SVal)
    (ha : hasAddr h a = true) : heapGet (heapSet h a k v) a k = some v := by
  unfold hasAddr at ha
  unfold heapGet
  rw [lookupAddr_heapSet_self]
  match hm : lookupAddr h a with
  | none => rw [hm] at ha; simp at ha
  | some fs => simp [findEntry_setEntry_self]

theorem heapGet_heapSet_other (h : Heap) (a b : Nat) (k k' : String) (v : SVal)
    (hne : a ≠ b ∨ k' ≠ k) : heapGet (heapSet h b k' v) a k = heapGet h a k := by
  by_cases hab : a = b
  · subst hab
    have hk : k' ≠ k := hne.resolve_left (fun hc => hc rfl)
    unfold heapGet
    rw [lookupAddr_heapSet_self]
    match hm : lookupAddr h a with
    | none => simp
    | some fs => simp [findEntry_setEntry_ne _ _ _ _ hk]
  · unfold heapGet
    rw [lookupAddr_heapSet_ne _ _ _ _ _ hab]

theorem hasAddr_heapSet (h : Heap) (a b : Nat) (k : String) (v : SVal) :
    hasAddr (heapSet h b k v) a = hasAddr h a := by
  by_cases hab : a = b
  · subst hab
    unfold hasAddr
    rw [lookupAddr_heapSet_self]
    match hm : lookupAddr h a with
    | none => simp
    | some fs => simp
  · unfold hasAddr
    rw [lookupAddr_heapSet_ne _ _ _ _ _ hab]

/-! ## Claim C3 -/

/-- Claim C3: for every subscriber list and every single property write
through the reactive handle — the handle being reachable by any chain of
reads from the root, so at any nesting depth — the underlying storage is
updated immediately and the invocation trace of the write is exactly the
subscriber list: each subscribed callback runs exactly once, synchronously,
in subscription order. -/
theorem c3_single_write_notifies_once
    (st : Store) (p : List String) (a : Nat) (k : String) (v : SVal)
    (_hpath : getPath st.heap rootAddr p = some a)
    (ha : hasAddr st.heap a = true) :
    heapGet (reactiveSet st a k v).1.heap a k = some v ∧
    (reactiveSet st a k v).2 = st.subs := by
  refine ⟨?_, ?_⟩
  · exact heapGet_heapSet_self st.heap a k v ha
  · simp [reactiveSet, notify_eq]

/-- Heap with a field three levels deep, used to witness C3. -/
def threeDeepHeap : Heap :=
  [(0, [("a", .ref 1)]), (1, [("b", .ref 2)]), (2, [("c", .prim (.int 5))])]

/-- Witness for C3: two subscribers, a write on a field three levels deep;
the storage holds the new value and the trace is the subscriber list. -/
theorem c3_single_write_notifies_once_witness :
    heapGet (reactiveSet ⟨threeDeepHeap, [7, 8]⟩ 2 "c" (.prim (.int 9))).1.heap
        2 "c" = some (.prim (.int 9)) ∧
    (reactiveSet ⟨threeDeepHeap, [7, 8]⟩ 2 "c" (.prim (.int 9))).2 = [7, 8] :=
  c3_single_write_notifies_once ⟨threeDeepHeap, [7, 8]⟩ ["a", "b"] 2 "c"
    (.prim (.int 9)) (by decide) (by decide)

/-! ## Claim C4 -/

/-- Field table of the task object `{id: 1, name: 'buy milk', completed: false}`. -/
def taskObj : List (String × SVal) :=
  [("id", .prim (.int 1)), ("name", .prim (.str "buy milk")),
   ("completed", .prim (.bool false))]

/-- The C4 scenario store: the initial application state, the pushed task
object allocated at address 2, and one subscribed render callback (id 0). -/
def c4Store : Store :=
  subscribe ⟨initialHeap ++ [(2, taskObj)], []⟩ 0

/-- Counterexample to claim C4 as stated: in the scenario state
`{tasks: [], filter: 'all', editingId: null, currentId: 1}` with one
subscribed render callback, `state.tasks.push({id: 1, name: 'buy milk',
completed: false})` produces the invocation trace `[0, 0]` — the callback
fires twice (once for the index-0 element write, once for the length
write), not exactly once. -/
theorem c4_push_fires_twice_counterexample :
    (arrayPush c4Store 1 (.ref 2)).map (fun r => r.2) = some [0, 0] ∧
    some ([0, 0] : List Nat) ≠ some [0] := by
  refine ⟨by decide, by decide⟩

/-- Claim C4 amended: starting from the scenario state with one subscribed
render function, pushing through the reactive handle updates the array and
fires the subscriber list twice — once per Proxy set-trap pass (element
write, then length write).  Stated generally: a push on any array handle
emits the subscriber list twice and stores the element and new length. -/
theorem c4_push_fires_twice
    (st : Store) (a : Nat) (v : SVal) (n : Int)
    (hlen : heapGet st.heap a "length" = some (.prim (.int n)))
    (ha : hasAddr st.heap a = true)
    (hkey : toString n ≠ "length") :
    ∃ st', arrayPush st a v = some (st', st.subs ++ st.subs) ∧
      heapGet st'.heap a (toString n) = some v ∧
      heapGet st'.heap a "length" = some (.prim (.int (n + 1))) := by
  refine ⟨⟨heapSet (heapSet st.heap a (toString n) v) a "length"
      (.prim (.int (n + 1))), st.subs⟩, ?_, ?_, ?_⟩
  · unfold arrayPush
    rw [hlen]
    simp [reactiveSet, notify_eq]
  · rw [heapGet_heapSet_other _ _ _ _ _ _ (Or.inr (Ne.symm hkey))]
    exact heapGet_heapSet_self _ _ _ _ ha
  · have ha' : hasAddr (heapSet st.heap a (toString n) v) a = true := by
      rw [hasAddr_heapSet]; exact ha
    exact heapGet_heapSet_self _ _ _ _ ha'

/-- Witness for the amended C4 theorem at the concrete scenario store. -/
theorem c4_push_fires_twice_witness :
    ∃ st', arrayPush c4Store 1 (.ref 2) = some (st', [0] ++ [0]) ∧
      heapGet st'.heap 1 (toString (0 : Int)) = some (.ref 2) ∧
      heapGet st'.heap 1 "length" = some (.prim (.int (0 + 1))) :=
  c4_push_fires_twice c4Store 1 (.ref 2) 0 (by decide) (by decide) (by decide)

/-! ## Claim C8 -/

/-- Claim C8: reading the same nested composite field twice without
intervening writes yields handles wrapping the same underlying object:
the wrapper address is determined by the field (two reads agree), a write
through the handle updates the shared underlying storage, and — as long as
the write did not overwrite that very field — re-reading the field still
yields a handle over the same storage, so a write through either handle is
visible through the other. -/
theorem c8_nested_handles_share_storage
    (st : Store) (a : Nat) (k : String) (b : Nat)
    (hread : reactiveGet st.heap a k = some (.ref b))
    (hb : hasAddr st.heap b = true) :
    (∀ b', reactiveGet st.heap a k = some (.ref b') → b' = b) ∧
    (∀ k' v, heapGet (reactiveSet st b k' v).1.heap b k' = some v ∧
      ((a ≠ b ∨ k ≠ k') →
        reactiveGet (reactiveSet st b k' v).1.heap a k = some (.ref b))) := by
  refine ⟨?_, fun k' v => ⟨?_, fun hne => ?_⟩⟩
  · intro b' h'
    rw [hread] at h'
    cases h'
    rfl
  · exact heapGet_heapSet_self st.heap b k' v hb
  · simp only [reactiveSet, reactiveGet]
    rw [heapGet_heapSet_other st.heap a b k k' v
      (hne.imp id (fun hkk => fun hc => hkk hc.symm))]
    exact hread

/-- Witness for C8 on the initial application state: two reads of
`state.tasks` wrap the same array object, and a write through the handle is
visible through the other. -/
theorem c8_nested_handles_share_storage_witness :
    (∀ b', reactiveGet initialHeap 0 "tasks" = some (.ref b') → b' = 1) ∧
    (∀ k' v,
      heapGet (reactiveSet ⟨initialHeap, []⟩ 1 k' v).1.heap 1 k' = some v ∧
      (((0 : Nat) ≠ 1 ∨ "tasks" ≠ k') →
        reactiveGet (reactiveSet ⟨initialHeap, []⟩ 1 k' v).1.heap 0 "tasks" =
          some (.ref 1))) :=
  c8_nested_handles_share_storage ⟨initialHeap, []⟩ 0 "tasks" 1 (by decide) (by decide)

/-! ## Claim C2 -/

/-- Claim C2 evaluated at a failing input.  The claim says falsy children
are skipped silently and contribute no node; the children loop of `render`
has no such filter.  Rendering `{tag: 'div', attrs: {}, children: [false,
'hello']}` — the shape the application's `isEditing && createVNode(...)`
idiom produces — appends a junk element with tag name "undefined" for the
`false` child, before the text node of the non-falsy child; and a `null`
(or undefined) child makes `render` throw a TypeError instead of
contributing no node. -/
theorem c2_falsy_children_not_skipped :
    render (VNode.el "div" [] [VNode.boolLit false, VNode.str "hello"]) =
      .ok (.elem "div" [] [] []
        [.elem "undefined" [] [] [] [], .text "hello"]) ∧
    render (VNode.el "div" [] [VNode.nullLit, VNode.str "hello"]) =
      .error tyErrNull :=
  ⟨rfl, rfl⟩

/-! ## Claim C6 -/

/-- Counterexample to claim C6: no flattening of a nested children
sequence occurs, neither in `createVNode` nor in `render`.  Rendering
`createVNode('ul', {}, [li, li])` (a nested array as one child) yields an
element with a single child — an element with tag name "undefined" and no
children, because the array reaches `render`, which reads `array.tag` as
undefined — not the two rendered `li` elements the claim requires. -/
theorem c6_no_flattening_counterexample :
    render (createVNode "ul" (some [])
        [VNode.arr [VNode.el "li" [] [], VNode.el "li" [] []]]) =
      .ok (.elem "ul" [] [] [] [.elem "undefined" [] [] [] []]) ∧
    renderList [VNode.el "li" [] [], VNode.el "li" [] []] =
      .ok [.elem "li" [] [] [] [], .elem "li" [] [] [] []] ∧
    [DomNode.elem "undefined" [] [] [] []] ≠
      [DomNode.elem "li" [] [] [] [], DomNode.elem "li" [] [] [] []] :=
  ⟨rfl, rfl, by simp⟩

/-- Claim C6 amended: the builder returns a descriptor with exactly the
fields tag, attrs, children, defaulting attrs to an empty mapping when
omitted; but a nested sequence among the children is never flattened — it
reaches `render` as one child and is rendered as a single element with tag
name "undefined" and no attributes or children (its elements are dropped),
so callers must spread nested sequences themselves. -/
theorem c6_builder_fields_no_flattening :
    (∀ tag cs, createVNode tag none cs = VNode.el tag [] cs) ∧
    (∀ tag a cs, createVNode tag (some a) cs = VNode.el tag a cs) ∧
    (∀ ns, render (VNode.arr ns) = .ok (.elem "undefined" [] [] [] [])) :=
  ⟨fun _ _ => rfl, fun _ _ _ => rfl, fun _ => rfl⟩

/-! ## Claim C5 -/

/-- Counterexample to claim C5 as stated: for an event name without a
corresponding handler IDL property on the element, the assignment
`el['on' + name] = fn` creates a plain expando property and installs no
event binding, so triggering the event invokes the callable zero times,
not exactly once.  Rendering `{tag: 'div', attrs: {onmycustom: f}}` stores
the function as the property "onmycustom" and installs no handler; the
dispatch of "mycustom" invokes nothing. -/
theorem c5_unknown_event_counterexample :
    render (VNode.el "div" [("onmycustom", .fn 7)] []) =
      .ok (.elem "div" [] [("onmycustom", .fn 7)] [] []) ∧
    trigger "mycustom" (.elem "div" [] [("onmycustom", .fn 7)] [] []) = [] ∧
    ([] : List Nat) ≠ [7] :=
  ⟨rfl, rfl, by simp⟩

/-! ## Claim C9 -/

/-- Counterexample to claim C9 as stated: attribute application does not
commute for every descriptor.  The two entries `onClick: f1` and
`onCLICK: f2` both lowercase to the handler property "onclick", so the
entry applied last wins: the two application orders produce elements whose
click dispatch invokes different callbacks. -/
theorem c9_attr_order_observable_counterexample :
    render (VNode.el "div" [("onClick", .fn 1), ("onCLICK", .fn 2)] []) =
      .ok (.elem "div" [("click", 2)] [] [] []) ∧
    render (VNode.el "div" [("onCLICK", .fn 2), ("onClick", .fn 1)] []) =
      .ok (.elem "div" [("click", 1)] [] [] []) ∧
    trigger "click" (.elem "div" [("click", 2)] [] [] []) ≠
      trigger "click" (.elem "div" [("click", 1)] [] [] []) :=
  ⟨rfl, rfl, by decide⟩

/-! ## Handler-slot lemmas for the amended C5 -/

theorem eventOf_toLowerJs {q e : String} (h : eventOf q = some e) :
    eventOf (toLowerJs q) = some e := by
  unfold eventOf at h
  split at h <;> simp_all <;> subst_vars <;> decide

theorem applyAttr_handlers_untouched (st : ElemState) (entry : String × AttrVal)
    (e : String) (h : ¬ eventOf (toLowerJs entry.1) = some e) :
    findEntry (applyAttr st entry).handlers e = findEntry st.handlers e := by
  unfold applyAttr
  by_cases hc : (startsWithOn entry.1 && callable entry.2) = true
  · simp only [hc, if_true]
    unfold setElemProp
    match hev : eventOf (toLowerJs entry.1) with
    | some e' =>
      have hne : e' ≠ e := fun hc' => h (hc' ▸ hev)
      by_cases hcall : callable entry.2 = true
      · simp [hcall, findEntry_setEntry_ne _ _ _ _ hne]
      · simp [hcall, findEntry_eraseEntry_ne _ _ _ hne]
    | none => simp
  · simp only [hc, if_false]
    by_cases hin : keyIn st entry.1 = true
    · simp only [hin, if_true]
      unfold setElemProp
      match hev : eventOf entry.1 with
      | some e' =>
        have hne : e' ≠ e := by
          intro hc'
          subst hc'
          exact h (eventOf_toLowerJs hev)
        by_cases hcall : callable entry.2 = true
        · simp [hcall, findEntry_setEntry_ne _ _ _ _ hne]
        · simp [hcall, findEntry_eraseEntry_ne _ _ _ hne]
      | none => simp
    · simp [hin]

theorem applyAttrs_handlers_untouched (attrs : List (String × AttrVal))
    (st : ElemState) (e : String)
    (h : ∀ p ∈ attrs, ¬ eventOf (toLowerJs p.1) = some e) :
    findEntry (applyAttrs st attrs).handlers e = findEntry st.handlers e := by
  induction attrs generalizing st with
  | nil => rfl
  | cons p rest ih =>
    have hstep := applyAttr_handlers_untouched st p e (h p (by simp))
    have hrest := ih (applyAttr st p) (fun q hq => h q (by simp [hq]))
    calc findEntry (applyAttrs st (p :: rest)).handlers e
        = findEntry (applyAttrs (applyAttr st p) rest).handlers e := rfl
      _ = findEntry (applyAttr st p).handlers e := hrest
      _ = findEntry st.handlers e := hstep

theorem applyAttr_handlers_set (st : ElemState) (k : String) (cb : Nat) (e : String)
    (hk : startsWithOn k = true) (he : eventOf (toLowerJs k) = some e) :
    findEntry (applyAttr st (k, AttrVal.fn cb)).handlers e = some cb := by
  unfold applyAttr
  have hc : (startsWithOn k && callable (AttrVal.fn cb)) = true := by
    simp [hk, callable]
  simp only [hc, if_true]
  unfold setElemProp
  simp only [he]
  simp [callable, cbId, findEntry_setEntry_self]

theorem applyAttrs_handlers_of_filter (attrs : List (String × AttrVal))
    (st : ElemState) (e k : String) (cb : Nat)
    (hf : attrs.filter (fun p => eventOf (toLowerJs p.1) == some e) =
      [(k, AttrVal.fn cb)])
    (hk : startsWithOn k = true) :
    findEntry (applyAttrs st attrs).handlers e = some cb := by
  induction attrs generalizing st with
  | nil => simp at hf
  | cons p rest ih =>
    by_cases hp : (eventOf (toLowerJs p.1) == some e) = true
    · rw [List.filter_cons, if_pos hp] at hf
      have hpk : p = (k, AttrVal.fn cb) := (List.cons_eq_cons.mp hf).1
      have hrest : rest.filter (fun p => eventOf (toLowerJs p.1) == some e) = [] :=
        (List.cons_eq_cons.mp hf).2
      have hnone : ∀ q ∈ rest, ¬ eventOf (toLowerJs q.1) = some e := by
        intro q hq
        have := List.filter_eq_nil_iff.mp hrest q hq
        simpa using this
      have he : eventOf (toLowerJs k) = some e := by
        have hbeq := eq_of_beq hp
        rw [hpk] at hbeq
        simpa using hbeq
      calc findEntry (applyAttrs st (p :: rest)).handlers e
          = findEntry (applyAttrs (applyAttr st p) rest).handlers e := rfl
        _ = findEntry (applyAttr st p).handlers e :=
            applyAttrs_handlers_untouched rest _ e hnone
        _ = some cb := by rw [hpk]; exact applyAttr_handlers_set st k cb e hk he
    · rw [List.filter_cons, if_neg hp] at hf
      have hstep := applyAttr_handlers_untouched st p e (by simpa using hp)
      calc findEntry (applyAttrs st (p :: rest)).handlers e
          = findEntry (applyAttrs (applyAttr st p) rest).handlers e := rfl
        _ = some cb := ih (applyAttr st p) hf

/-- Claim C5 amended: for every attrs entry whose key is "on" + eventName
with a callable value, where the element supports eventName (it exposes
the corresponding handler IDL property) and no other entry collides with
the same handler slot, rendering installs exactly one binding — the event
name matched case-insensitively through `el[key.toLowerCase()] = value` —
and dispatching the event invokes that callable exactly once per trigger;
`render` being a pure allocation of a fresh element, rendering an
equivalent descriptor again yields a fresh element with the same single
binding.  For unsupported event names no binding is installed (see the
counterexample). -/
theorem c5_supported_event_binds_once
    (tag : String) (attrs : List (String × AttrVal)) (e k : String) (cb : Nat)
    (children : List VNode) (kids : List DomNode)
    (hf : attrs.filter (fun p => eventOf (toLowerJs p.1) == some e) =
      [(k, AttrVal.fn cb)])
    (hk : startsWithOn k = true)
    (hkids : renderList children = .ok kids) :
    ∃ node, render (VNode.el tag attrs children) = .ok node ∧
      trigger e node = [cb] := by
  have hst := applyAttrs_handlers_of_filter attrs (createElement tag) e k cb hf hk
  refine ⟨.elem (applyAttrs (createElement tag) attrs).tag
      (applyAttrs (createElement tag) attrs).handlers
      (applyAttrs (createElement tag) attrs).props
      (applyAttrs (createElement tag) attrs).attrsM kids, ?_, ?_⟩
  · simp only [render, hkids]
  · simp only [trigger]
    rw [hst]

/-- Witness for the amended C5: the descriptor
`createVNode('button', {class: 'primary', onClick: f3}, 'Click Me')`
renders to an element on which dispatching "click" invokes callback 3
exactly once. -/
theorem c5_supported_event_binds_once_witness :
    ∃ node, render (VNode.el "button"
        [("class", .str "primary"), ("onClick", .fn 3)] [VNode.str "Click Me"]) =
      .ok node ∧ trigger "click" node = [3] :=
  c5_supported_event_binds_once "button"
    [("class", .str "primary"), ("onClick", .fn 3)] "click" "onClick" 3
    [VNode.str "Click Me"] [.text "Click Me"] (by decide) (by decide) rfl

/-! ## Commutation lemmas for the amended C9 -/

/-- Common shape of the two handler-table updates: `some cb` models the
assignment of a callable (install), `none` the assignment of a
non-callable (reset to null). -/
def applyOpt {α : Type} (l : List (String × α)) (k : String) : Option α → List (String × α)
  | some v => setEntry l k v
  | none => eraseEntry l k

theorem findEntry_applyOpt_self {α : Type} (l : List (String × α)) (k : String)
    (o : Option α) : findEntry (applyOpt l k o) k = o := by
  cases o with
  | some v => exact findEntry_setEntry_self l k v
  | none => exact findEntry_eraseEntry_self l k

theorem findEntry_applyOpt_ne {α : Type} (l : List (String × α)) (k q : String)
    (o : Option α) (h : k ≠ q) : findEntry (applyOpt l k o) q = findEntry l q := by
  cases o with
  | some v => exact findEntry_setEntry_ne l k q v h
  | none => exact findEntry_eraseEntry_ne l k q h

theorem applyOpt_comm_ext {α : Type} (l : List (String × α)) (k1 k2 : String)
    (o1 o2 : Option α) (h : k1 ≠ k2) (q : String) :
    findEntry (applyOpt (applyOpt l k1 o1) k2 o2) q =
      findEntry (applyOpt (applyOpt l k2 o2) k1 o1) q := by
  by_cases hq2 : q = k2
  · subst hq2
    rw [findEntry_applyOpt_self, findEntry_applyOpt_ne _ _ _ _ h,
      findEntry_applyOpt_self]
  · by_cases hq1 : q = k1
    · subst hq1
      rw [findEntry_applyOpt_ne _ _ _ _ (Ne.symm h), findEntry_applyOpt_self,
        findEntry_applyOpt_self]
    · rw [findEntry_applyOpt_ne _ _ _ _ (fun hc => hq2 hc.symm),
        findEntry_applyOpt_ne _ _ _ _ (fun hc => hq1 hc.symm),
        findEntry_applyOpt_ne _ _ _ _ (fun hc => hq1 hc.symm),
        findEntry_applyOpt_ne _ _ _ _ (fun hc => hq2 hc.symm)]

theorem findEntry_setEntry_comm {α : Type} (l : List (String × α)) (k1 k2 : String)
    (v1 v2 : α) (h : k1 ≠ k2) (q : String) :
    findEntry (setEntry (setEntry l k1 v1) k2 v2) q =
      findEntry (setEntry (setEntry l k2 v2) k1 v1) q :=
  applyOpt_comm_ext l k1 k2 (some v1) (some v2) h q

theorem eventOf_inj {p p' e : String} (h : eventOf p = some e)
    (h' : eventOf p' = some e) : p = p' := by
  unfold eventOf at h h'
  split at h <;> split at h' <;> simp_all <;>
    (rw [← h] at h'; exact absurd h' (by decide))

theorem setElemProp_tag (st : ElemState) (p : String) (v : AttrVal) :
    (setElemProp st p v).tag = st.tag := by
  unfold setElemProp
  cases hev : eventOf p
  · simp only [hev]
  · simp only [hev]
    split <;> rfl

theorem setElemProp_attrsM (st : ElemState) (p : String) (v : AttrVal) :
    (setElemProp st p v).attrsM = st.attrsM := by
  unfold setElemProp
  cases hev : eventOf p
  · simp only [hev]
  · simp only [hev]
    split <;> rfl

theorem setElemProp_handlers_of_event (st : ElemState) (p : String) (v : AttrVal)
    {e : String} (he : eventOf p = some e) :
    (setElemProp st p v).handlers =
      applyOpt st.handlers e (if callable v then some (cbId v) else none) := by
  unfold setElemProp
  rw [he]
  by_cases hc : callable v = true <;> simp [hc, applyOpt]

theorem setElemProp_props_of_event (st : ElemState) (p : String) (v : AttrVal)
    {e : String} (he : eventOf p = some e) :
    (setElemProp st p v).props = st.props := by
  unfold setElemProp
  simp only [he]
  split <;> rfl

theorem setElemProp_handlers_of_none (st : ElemState) (p : String) (v : AttrVal)
    (he : eventOf p = none) : (setElemProp st p v).handlers = st.handlers := by
  unfold setElemProp
  rw [he]

theorem setElemProp_props_of_none (st : ElemState) (p : String) (v : AttrVal)
    (he : eventOf p = none) : (setElemProp st p v).props = setEntry st.props p v := by
  unfold setElemProp
  rw [he]

theorem setElemProp_comm (st : ElemState) (p1 p2 : String) (v1 v2 : AttrVal)
    (h : p1 ≠ p2) :
    (∀ q, findEntry (setElemProp (setElemProp st p1 v1) p2 v2).handlers q =
      findEntry (setElemProp (setElemProp st p2 v2) p1 v1).handlers q) ∧
    (∀ q, findEntry (setElemProp (setElemProp st p1 v1) p2 v2).props q =
      findEntry (setElemProp (setElemProp st p2 v2) p1 v1).props q) := by
  match hev1 : eventOf p1, hev2 : eventOf p2 with
  | some e1, some e2 =>
    have hee : e1 ≠ e2 := fun hc => h (eventOf_inj hev1 (hc ▸ hev2))
    refine ⟨fun q => ?_, fun q => ?_⟩
    · rw [setElemProp_handlers_of_event _ _ _ hev2,
        setElemProp_handlers_of_event _ _ _ hev1,
        setElemProp_handlers_of_event _ _ _ hev1,
        setElemProp_handlers_of_event _ _ _ hev2]
      exact applyOpt_comm_ext _ _ _ _ _ hee q
    · rw [setElemProp_props_of_event _ _ _ hev2,
        setElemProp_props_of_event _ _ _ hev1,
        setElemProp_props_of_event _ _ _ hev1,
        setElemProp_props_of_event _ _ _ hev2]
  | some e1, none =>
    refine ⟨fun q => ?_, fun q => ?_⟩
    · rw [setElemProp_handlers_of_none _ _ _ hev2,
        setElemProp_handlers_of_event _ _ _ hev1,
        setElemProp_handlers_of_event _ _ _ hev1,
        setElemProp_handlers_of_none _ _ _ hev2]
    · rw [setElemProp_props_of_none _ _ _ hev2,
        setElemProp_props_of_event _ _ _ hev1,
        setElemProp_props_of_event _ _ _ hev1,
        setElemProp_props_of_none _ _ _ hev2]
  | none, some e2 =>
    refine ⟨fun q => ?_, fun q => ?_⟩
    · rw [setElemProp_handlers_of_event _ _ _ hev2,
        setElemProp_handlers_of_none _ _ _ hev1,
        setElemProp_handlers_of_none _ _ _ hev1,
        setElemProp_handlers_of_event _ _ _ hev2]
    · rw [setElemProp_props_of_event _ _ _ hev2,
        setElemProp_props_of_none _ _ _ hev1,
        setElemProp_props_of_none _ _ _ hev1,
        setElemProp_props_of_event _ _ _ hev2]
  | none, none =>
    refine ⟨fun q => ?_, fun q => ?_⟩
    · rw [setElemProp_handlers_of_none _ _ _ hev2,
        setElemProp_handlers_of_none _ _ _ hev1,
        setElemProp_handlers_of_none _ _ _ hev1,
        setElemProp_handlers_of_none _ _ _ hev2]
    · rw [setElemProp_props_of_none _ _ _ hev2,
        setElemProp_props_of_none _ _ _ hev1,
        setElemProp_props_of_none _ _ _ hev1,
        setElemProp_props_of_none _ _ _ hev2]
      exact findEntry_setEntry_comm _ _ _ _ _ h q

theorem keyIn_setElemProp_ne (st : ElemState) (p k : String) (v : AttrVal)
    (h : p ≠ k) : keyIn (setElemProp st p v) k = keyIn st k := by
  unfold setElemProp keyIn
  match hev : eventOf p with
  | some e => cases hc : callable v <;> simp [hc]
  | none => simp [hasKey_setEntry_ne st.props p k v h]

theorem applyAttr_handler_branch (st : ElemState) (k : String) (v : AttrVal)
    (hc : (startsWithOn k && callable v) = true) :
    applyAttr st (k, v) = setElemProp st (toLowerJs k) v := by
  unfold applyAttr
  rw [hc]
  exact rfl

theorem applyAttr_prop_branch (st : ElemState) (k : String) (v : AttrVal)
    (hc : (startsWithOn k && callable v) = false) (hin : keyIn st k = true) :
    applyAttr st (k, v) = setElemProp st k v := by
  unfold applyAttr
  rw [hc, hin]
  exact rfl

theorem applyAttr_attr_branch (st : ElemState) (k : String) (v : AttrVal)
    (hc : (startsWithOn k && callable v) = false) (hin : keyIn st k = false) :
    applyAttr st (k, v) =
      { st with attrsM := setEntry st.attrsM k (attrValToString v) } := by
  unfold applyAttr
  rw [hc, hin]
  exact rfl

theorem setElemProp_attrWrite_comm (st : ElemState) (p k : String) (v : AttrVal)
    (s : String) :
    { setElemProp st p v with attrsM := setEntry (setElemProp st p v).attrsM k s } =
      setElemProp { st with attrsM := setEntry st.attrsM k s } p v := by
  unfold setElemProp
  cases hev : eventOf p
  · simp only [hev]
  · simp only [hev]
    split <;> rfl

/-- Observational equality of element states: same tag and the same
observable value for every handler slot, every property and every
attribute (the underlying tables may order their entries differently). -/
def ElemState.obsEq (s t : ElemState) : Prop :=
  s.tag = t.tag ∧
  (∀ q, findEntry s.handlers q = findEntry t.handlers q) ∧
  (∀ q, findEntry s.props q = findEntry t.props q) ∧
  (∀ q, findEntry s.attrsM q = findEntry t.attrsM q)

theorem obsEq_of_eq {s t : ElemState} (h : s = t) : ElemState.obsEq s t := by
  subst h
  exact ⟨rfl, fun q => rfl, fun q => rfl, fun q => rfl⟩

theorem obsEq_setElemProp_swap (st : ElemState) (p1 p2 : String) (v1 v2 : AttrVal)
    (h : p1 ≠ p2) :
    ElemState.obsEq (setElemProp (setElemProp st p1 v1) p2 v2)
      (setElemProp (setElemProp st p2 v2) p1 v1) := by
  refine ⟨?_, (setElemProp_comm st p1 p2 v1 v2 h).1,
    (setElemProp_comm st p1 p2 v1 v2 h).2, ?_⟩
  · rw [setElemProp_tag, setElemProp_tag, setElemProp_tag, setElemProp_tag]
  · intro q
    rw [setElemProp_attrsM, setElemProp_attrsM, setElemProp_attrsM, setElemProp_attrsM]

/-- Claim C9 amended: applications of two attrs entries to an element
commute — the final observable element state (handler slots, properties
and attributes, with property-vs-attribute classification evaluated per
key against the live element) is independent of their order — provided the
two keys are distinct even after the renderer's handler-key lowercasing
(no two entries may collide on the same lowercased "on" slot, as in the
counterexample, nor may one key equal the other's lowercased form). -/
theorem c9_attr_entries_commute
    (st : ElemState) (k1 k2 : String) (v1 v2 : AttrVal)
    (h1 : toLowerJs k1 ≠ toLowerJs k2) (h2 : k1 ≠ toLowerJs k2)
    (h3 : k2 ≠ toLowerJs k1) (h4 : k1 ≠ k2) :
    ElemState.obsEq (applyAttr (applyAttr st (k1, v1)) (k2, v2))
      (applyAttr (applyAttr st (k2, v2)) (k1, v1)) := by
  cases hc1 : (startsWithOn k1 && callable v1) with
  | true =>
    cases hc2 : (startsWithOn k2 && callable v2) with
    | true =>
      rw [applyAttr_handler_branch st _ _ hc1, applyAttr_handler_branch _ _ _ hc2,
        applyAttr_handler_branch st _ _ hc2, applyAttr_handler_branch _ _ _ hc1]
      exact obsEq_setElemProp_swap st _ _ v1 v2 h1
    | false =>
      have hkin : keyIn (setElemProp st (toLowerJs k1) v1) k2 = keyIn st k2 :=
        keyIn_setElemProp_ne st (toLowerJs k1) k2 v1 (Ne.symm h3)
      cases hin2 : keyIn st k2 with
      | true =>
        rw [applyAttr_handler_branch st _ _ hc1,
          applyAttr_prop_branch _ _ _ hc2 (by rw [hkin]; exact hin2),
          applyAttr_prop_branch st _ _ hc2 hin2,
          applyAttr_handler_branch _ _ _ hc1]
        exact obsEq_setElemProp_swap st _ _ v1 v2 (Ne.symm h3)
      | false =>
        rw [applyAttr_handler_branch st _ _ hc1,
          applyAttr_attr_branch _ _ _ hc2 (by rw [hkin]; exact hin2),
          applyAttr_attr_branch st _ _ hc2 hin2,
          applyAttr_handler_branch _ _ _ hc1]
        exact obsEq_of_eq (setElemProp_attrWrite_comm st (toLowerJs k1) k2 v1
          (attrValToString v2))
  | false =>
    cases hc2 : (startsWithOn k2 && callable v2) with
    | true =>
      have hkin : keyIn (setElemProp st (toLowerJs k2) v2) k1 = keyIn st k1 :=
        keyIn_setElemProp_ne st (toLowerJs k2) k1 v2 (Ne.symm h2)
      cases hin1 : keyIn st k1 with
      | true =>
        rw [applyAttr_prop_branch st _ _ hc1 hin1,
          applyAttr_handler_branch _ _ _ hc2,
          applyAttr_handler_branch st _ _ hc2,
          applyAttr_prop_branch _ _ _ hc1 (by rw [hkin]; exact hin1)]
        exact obsEq_setElemProp_swap st _ _ v1 v2 h2
      | false =>
        rw [applyAttr_attr_branch st _ _ hc1 hin1,
          applyAttr_handler_branch _ _ _ hc2,
          applyAttr_handler_branch st _ _ hc2,
          applyAttr_attr_branch _ _ _ hc1 (by rw [hkin]; exact hin1)]
        exact obsEq_of_eq (setElemProp_attrWrite_comm st (toLowerJs k2) k1 v2
          (attrValToString v1)).symm
    | false =>
      cases hin1 : keyIn st k1 with
      | true =>
        have hkin2 : keyIn (setElemProp st k1 v1) k2 = keyIn st k2 :=
          keyIn_setElemProp_ne st k1 k2 v1 h4
        cases hin2 : keyIn st k2 with
        | true =>
          have hkin1 : keyIn (setElemProp st k2 v2) k1 = keyIn st k1 :=
            keyIn_setElemProp_ne st k2 k1 v2 (Ne.symm h4)
          rw [applyAttr_prop_branch st _ _ hc1 hin1,
            applyAttr_prop_branch _ _ _ hc2 (by rw [hkin2]; exact hin2),
            applyAttr_prop_branch st _ _ hc2 hin2,
            applyAttr_prop_branch _ _ _ hc1 (by rw [hkin1]; exact hin1)]
          exact obsEq_setElemProp_swap st _ _ v1 v2 h4
        | false =>
          rw [applyAttr_prop_branch st _ _ hc1 hin1,
            applyAttr_attr_branch _ _ _ hc2 (by rw [hkin2]; exact hin2),
            applyAttr_attr_branch st _ _ hc2 hin2,
            applyAttr_prop_branch _ _ _ hc1 (by exact hin1)]
          exact obsEq_of_eq (setElemProp_attrWrite_comm st k1 k2 v1
            (attrValToString v2))
      | false =>
        cases hin2 : keyIn st k2 with
        | true =>
          have hkin1 : keyIn (setElemProp st k2 v2) k1 = keyIn st k1 :=
            keyIn_setElemProp_ne st k2 k1 v2 (Ne.symm h4)
          rw [applyAttr_attr_branch st _ _ hc1 hin1,
            applyAttr_prop_branch _ _ _ hc2 (by exact hin2),
            applyAttr_prop_branch st _ _ hc2 hin2,
            applyAttr_attr_branch _ _ _ hc1 (by rw [hkin1]; exact hin1)]
          exact (obsEq_of_eq (setElemProp_attrWrite_comm st k2 k1 v2
            (attrValToString v1)).symm)
        | false =>
          rw [applyAttr_attr_branch st _ _ hc1 hin1,
            applyAttr_attr_branch _ _ _ hc2 (by exact hin2),
            applyAttr_attr_branch st _ _ hc2 hin2,
            applyAttr_attr_branch _ _ _ hc1 (by exact hin1)]
          exact ⟨rfl, fun q => rfl, fun q => rfl,
            fun q => findEntry_setEntry_comm _ _ _ _ _ h4 q⟩

/-- Witness for the amended C9: swapping the application order of a
property entry and a handler entry with distinct slots yields
observationally equal elements. -/
theorem c9_attr_entries_commute_witness :
    ElemState.obsEq
      (applyAttr (applyAttr (createElement "input") ("checked", .bool true))
        ("onClick", .fn 5))
      (applyAttr (applyAttr (createElement "input") ("onClick", .fn 5))
        ("checked", .bool true)) :=
  c9_attr_entries_commute (createElement "input") "checked" "onClick"
    (.bool true) (.fn 5) (by decide) (by decide) (by decide) (by decide)

/-! ## Mount equation lemmas (definitional reductions of the match) -/

theorem mount_single_eq (c : Container) (v : VNode) :
    mount (some c) (.single v) =
      if invalidVNode v then
        (some ⟨[]⟩, some (.structureError "Invalid vnode structure"))
      else
        match render v with
        | .error m => (some ⟨[]⟩, some (.renderError m))
        | .ok d => (some ⟨[d]⟩, none) := rfl

theorem mount_vlist_eq (c : Container) (vs : List VNode) :
    mount (some c) (.vlist vs) =
      (some ⟨(mountList [] vs).1⟩, (mountList [] vs).2) := rfl

theorem mountList_cons_eq (acc : List DomNode) (v : VNode) (vs : List VNode) :
    mountList acc (v :: vs) =
      if invalidVNode v then
        (acc, some (.structureError "Invalid vnode structure in array"))
      else
        match render v with
        | .error m => (acc, some (.renderError m))
        | .ok d => mountList (acc ++ [d]) vs := rfl

/-! ## Claim C1 -/

/-- Counterexample to claim C1 as stated: `mount` clears the container
before validating the input.  Mounting the invalid descriptor `{}` (no
tag) into a container holding one child throws the StructureError, yet the
container's previous children are gone. -/
theorem c1_clear_before_validate_counterexample :
    mount (some ⟨[DomNode.text "old"]⟩) (.single (VNode.el "" [] [])) =
      (some ⟨[]⟩, some (.structureError "Invalid vnode structure")) ∧
    ([] : List DomNode) ≠ [DomNode.text "old"] :=
  ⟨rfl, by simp⟩

/-- Claim C1 amended: `mount` validates the container first, but removes
the container's existing children (`root.innerHTML = ''`) before
validating the input, so when mount throws a StructureError the previous
children have already been removed: the container's final state is
whatever an initially empty container would hold (the rendered valid
prefix for a list; empty for a single invalid value), never the previous
children. -/
theorem c1_structure_error_after_clear
    (prev : List DomNode) (input : MountInput) (m : String)
    (herr : (mount (some ⟨prev⟩) input).2 = some (.structureError m)) :
    (mount (some ⟨prev⟩) input).1 = (mount (some ⟨[]⟩) input).1 ∧
    (∀ v, input = .single v → (mount (some ⟨prev⟩) input).1 = some ⟨[]⟩) := by
  constructor
  · cases input <;> rfl
  · intro v hv
    subst hv
    rw [mount_single_eq] at herr
    rw [mount_single_eq]
    cases hiv : invalidVNode v with
    | true => exact rfl
    | false =>
      cases hr : render v with
      | error m2 =>
        rw [hiv, hr] at herr
        simp at herr
      | ok d =>
        rw [hiv, hr] at herr
        simp at herr

/-- Witness for the amended C1 at the concrete failing input of the
counterexample. -/
theorem c1_structure_error_after_clear_witness :
    (mount (some ⟨[DomNode.text "old"]⟩) (.single (VNode.el "" [] []))).1 =
      (mount (some ⟨[]⟩) (.single (VNode.el "" [] []))).1 ∧
    (∀ v, MountInput.single (VNode.el "" [] []) = .single v →
      (mount (some ⟨[DomNode.text "old"]⟩) (.single (VNode.el "" [] []))).1 =
        some ⟨[]⟩) :=
  c1_structure_error_after_clear [DomNode.text "old"]
    (.single (VNode.el "" [] [])) "Invalid vnode structure" rfl

/-! ## Claim C10 -/

theorem mountList_stops_at_first_invalid (vs : List VNode) (k : Nat)
    (acc ds : List DomNode) (hk : k < vs.length)
    (hbad : invalidVNode (vs.get ⟨k, hk⟩) = true)
    (hgood : ∀ (j : Nat) (hj : j < k),
      invalidVNode (vs.get ⟨j, Nat.lt_trans hj hk⟩) = false)
    (hren : renderList (List.take k vs) = .ok ds) :
    mountList acc vs =
      (acc ++ ds, some (.structureError "Invalid vnode structure in array")) := by
  induction vs generalizing k acc ds with
  | nil => exact absurd hk (by simp)
  | cons v rest ih =>
    cases k with
    | zero =>
      have hbad0 : invalidVNode v = true := hbad
      have hds : ds = [] := by
        have hn : renderList (List.take 0 (v :: rest)) = .ok ([] : List DomNode) := rfl
        rw [hn] at hren
        cases hren
        rfl
      subst hds
      rw [mountList_cons_eq, hbad0]
      simp
    | succ k' =>
      have hv : invalidVNode v = false := hgood 0 (Nat.succ_pos k')
      rw [List.take_succ_cons] at hren
      unfold renderList at hren
      cases hr : render v with
      | error m2 =>
        rw [hr] at hren
        simp at hren
      | ok d =>
        rw [hr] at hren
        cases hrl : renderList (List.take k' rest) with
        | error m2 =>
          rw [hrl] at hren
          simp at hren
        | ok ds2 =>
          rw [hrl] at hren
          have hds : ds = d :: ds2 := by
            cases hren
            rfl
          subst hds
          have hk' : k' < rest.length := Nat.lt_of_succ_lt_succ hk
          have hbad1 : invalidVNode (rest.get ⟨k', hk'⟩) = true := hbad
          have hgood1 : ∀ (j : Nat) (hj : j < k'),
              invalidVNode (rest.get ⟨j, Nat.lt_trans hj hk'⟩) = false :=
            fun j hj => hgood (j + 1) (Nat.succ_lt_succ hj)
          have step := ih k' (acc ++ [d]) ds2 hk' hbad1 hgood1 hrl
          rw [mountList_cons_eq]
          simp only [hv, hr, Bool.false_eq_true, if_false]
          rw [step]
          simp

/-- Claim C10: when `mount` is called with an array whose first invalid
element (falsy, non-object, or missing tag) is at index k, the container
is cleared and the rendered nodes of elements 0 through k-1 are appended
before the error is thrown — afterwards the container holds exactly the
nodes of the valid prefix, so mount over a list is not all-or-nothing. -/
theorem c10_list_mount_keeps_valid_prefix
    (prev : List DomNode) (vs : List VNode) (k : Nat) (ds : List DomNode)
    (hk : k < vs.length)
    (hbad : invalidVNode (vs.get ⟨k, hk⟩) = true)
    (hgood : ∀ (j : Nat) (hj : j < k),
      invalidVNode (vs.get ⟨j, Nat.lt_trans hj hk⟩) = false)
    (hren : renderList (List.take k vs) = .ok ds) :
    mount (some ⟨prev⟩) (.vlist vs) =
      (some ⟨ds⟩, some (.structureError "Invalid vnode structure in array")) := by
  rw [mount_vlist_eq]
  rw [mountList_stops_at_first_invalid vs k [] ds hk hbad hgood hren]
  simp

/-- Witness for C10: mounting `[validDiv, false]` over a non-empty
container leaves exactly the rendered div (the valid prefix) in the
container and raises the array StructureError. -/
theorem c10_list_mount_keeps_valid_prefix_witness :
    mount (some ⟨[DomNode.text "old"]⟩)
        (.vlist [VNode.el "div" [] [], VNode.boolLit false]) =
      (some ⟨[DomNode.elem "div" [] [] [] []]⟩,
        some (.structureError "Invalid vnode structure in array")) :=
  c10_list_mount_keeps_valid_prefix [DomNode.text "old"]
    [VNode.el "div" [] [], VNode.boolLit false] 1 [DomNode.elem "div" [] [] [] []]
    (by decide) (by decide) (by decide) rfl

/-! ## Claim C7 -/

/-- Counterexample to the index part of claim C7: the StructureError
raised for a list is the same fixed value whatever the offending index —
here offending index 1 and offending index 2 raise identical errors — so
the error does not carry the index of the offending element. -/
theorem c7_no_index_in_list_error_counterexample :
    (mount (some ⟨[]⟩) (.vlist [VNode.el "div" [] [], VNode.boolLit false])).2 =
      some (.structureError "Invalid vnode structure in array") ∧
    (mount (some ⟨[]⟩)
        (.vlist [VNode.el "div" [] [], VNode.el "div" [] [], VNode.boolLit false])).2 =
      some (.structureError "Invalid vnode structure in array") ∧
    (1 : Nat) ≠ 2 :=
  ⟨rfl, rfl, by decide⟩

theorem mountList_structure_msg (vs : List VNode) (acc : List DomNode) (m : String)
    (h : (mountList acc vs).2 = some (.structureError m)) :
    m = "Invalid vnode structure in array" := by
  induction vs generalizing acc with
  | nil => simp [mountList] at h
  | cons v rest ih =>
    cases hv : invalidVNode v with
    | true =>
      unfold mountList at h
      rw [hv] at h
      simp at h
      exact h.symm
    | false =>
      unfold mountList at h
      rw [hv] at h
      simp only [Bool.false_eq_true, if_false] at h
      cases hr : render v with
      | error m2 =>
        rw [hr] at h
        simp at h
      | ok d =>
        rw [hr] at h
        exact ih (acc ++ [d]) h

/-- Claim C7 amended: `mount(container, {})` throws the StructureError
"Invalid vnode structure"; `mount(nonElementValue, anyInput)` throws the
TargetError before anything else (the container is validated first, even
when the input is also invalid); but the StructureError raised for a list
input is the fixed message "Invalid vnode structure in array" — it does
not name the offending position. -/
theorem c7_mount_validation_errors :
    (mount (some ⟨[]⟩) (.single (VNode.el "" [] []))).2 =
      some (.structureError "Invalid vnode structure") ∧
    (∀ input, mount none input =
      (none, some (.targetError "Root must be a DOM Element"))) ∧
    (∀ prev vs m, (mount (some ⟨prev⟩) (.vlist vs)).2 =
      some (.structureError m) → m = "Invalid vnode structure in array") := by
  refine ⟨rfl, fun input => rfl, fun prev vs m h => ?_⟩
  exact mountList_structure_msg vs [] m h

/-- Witness for the amended C7: a failing single mount, a failing
non-Element mount and the fixed list error message at the concrete input
`[false]`. -/
theorem c7_mount_validation_errors_witness :
    (mount (some ⟨[]⟩) (.vlist [VNode.boolLit false])).2 =
      some (.structureError "Invalid vnode structure in array") ∧
    mount none (.single (VNode.el "div" [] [])) =
      (none, some (.targetError "Root must be a DOM Element")) ∧
    "Invalid vnode structure in array" = "Invalid vnode structure in array" :=
  ⟨rfl, c7_mount_validation_errors.2.1 (.single (VNode.el "div" [] [])),
    c7_mount_validation_errors.2.2 [] [VNode.boolLit false]
      "Invalid vnode structure in array" rfl⟩

end MiniFw
